import Mathlib

/-!
Verification development for the Stock-Agent macro dashboards
(`cpi_agent.py`, `cpi_agent_v2.1.py`, `rate_agent.py`, `rate_agent_v2.py`,
`rate_agent_v3.py`).

The data engine of every script is a sequence of pandas data-frame
transformations.  We embed a data frame shallowly as a calendar index
(a list of dates, represented as naturals) together with an ordered
association list of named columns; a column is a list of optional
rational values, a `none` standing for pandas `NaN`.  All series are
modelled on the shared calendar index produced by the outer join of the
fetch step (`pd.concat(axis=1)` / successive `df[name] = series`
assignments), which is where every claim under study starts.
Rational numbers stand for the floating-point values of the source.
-/

/-- A pandas `DataFrame` after the outer join of the fetch step: a date
index plus an ordered list of named columns.  A column entry `none`
models `NaN`. -/
structure DataFrame where
  index : List ℕ
  cols : List (String × List (Option ℚ))
deriving DecidableEq, Repr

/-- The column labels of a frame, in order (`df.columns`). -/
def colNames (df : DataFrame) : List String :=
  df.cols.map Prod.fst

/-- Lookup of a column by label (`df[n]` when present): first match in
the association list. -/
def getCols : List (String × List (Option ℚ)) → String → Option (List (Option ℚ))
  | [], _ => none
  | c :: cs, n => if c.1 = n then some c.2 else getCols cs n

/-- `df[n]` as an optional column. -/
def getCol (df : DataFrame) (n : String) : Option (List (Option ℚ)) :=
  getCols df.cols n

/-- `df[n]` after a membership check has succeeded; defaults to the
empty column, which no claim exercises. -/
def getColD (df : DataFrame) (n : String) : List (Option ℚ) :=
  (getCol df n).getD []

/-- `n in df.columns`. -/
def hasCol (df : DataFrame) (n : String) : Bool :=
  (getCol df n).isSome

/-- Column assignment `df[n] = v`: replace the (unique) existing column
with that label in place, or append a new column at the end, exactly as
pandas does. -/
def setCols : List (String × List (Option ℚ)) → String → List (Option ℚ) →
    List (String × List (Option ℚ))
  | [], n, v => [(n, v)]
  | c :: cs, n, v => if c.1 = n then (n, v) :: cs else c :: setCols cs n v

/-- `df[n] = v` on a whole frame; the index is untouched. -/
def setCol (df : DataFrame) (n : String) (v : List (Option ℚ)) : DataFrame :=
  ⟨df.index, setCols df.cols n v⟩

/-- Pointwise division of a column by a scalar (`df[c] / k`); `NaN`
propagates. -/
def colDiv (v : List (Option ℚ)) (k : ℚ) : List (Option ℚ) :=
  v.map (fun x => x.map (fun q => q / k))

/-- Pointwise multiplication of a column by a scalar (`df[c] * k`). -/
def colScale (v : List (Option ℚ)) (k : ℚ) : List (Option ℚ) :=
  v.map (fun x => x.map (fun q => q * k))

/-- Pointwise difference of two aligned columns (`df[a] - df[b]`);
`NaN` propagates. -/
def colSub (a b : List (Option ℚ)) : List (Option ℚ) :=
  List.zipWith (fun x y =>
    match x, y with
    | some u, some w => some (u - w)
    | _, _ => none) a b

/-- Forward fill of one column, carrying an accumulator holding the most
recent real observation seen so far. -/
def ffillGo : Option ℚ → List (Option ℚ) → List (Option ℚ)
  | _, [] => []
  | _, some v :: rest => some v :: ffillGo (some v) rest
  | acc, none :: rest => acc :: ffillGo acc rest

/-- `Series.ffill()`: each missing value takes the most recent earlier
real value of the same column; leading missing values stay missing. -/
def ffill (xs : List (Option ℚ)) : List (Option ℚ) :=
  ffillGo none xs

/-- `df.ffill()`: forward fill applied to each column independently; the
index is untouched. -/
def dfFfill (df : DataFrame) : DataFrame :=
  ⟨df.index, df.cols.map (fun c => (c.1, ffill c.2))⟩

/-- Keep exactly the entries of a list whose position carries `true` in
the mask (the row-selection core of `dropna`). -/
def maskFilter {α : Type} : List Bool → List α → List α
  | true :: ks, x :: xs => x :: maskFilter ks xs
  | false :: ks, _ :: xs => maskFilter ks xs
  | _, _ => []

/-- `df.dropna(subset=[n])`: drop every row whose value in column `n`
is missing; every other row is kept, in order, in the index and in
every column.  When the column is absent pandas raises a `KeyError`,
modelled as the error case.  (`rate_agent.py` passes `how='all'` with
this single-column subset, which is the same row predicate.) -/
def dropnaSubset (df : DataFrame) (n : String) : Except String DataFrame :=
  match getCol df n with
  | none => .error "KeyError"
  | some v =>
      let keep := v.map (fun x => x.isSome)
      .ok ⟨maskFilter keep df.index, df.cols.map (fun c => (c.1, maskFilter keep c.2))⟩

/-- `df.dropna()` with no subset (`cpi_agent.py` line 93): drop every
row that is missing a value in any column. -/
def dropnaAll (df : DataFrame) : DataFrame :=
  let keep := (List.range df.index.length).map
    (fun i => df.cols.all (fun c => (c.2.getD i none).isSome))
  ⟨maskFilter keep df.index, df.cols.map (fun c => (c.1, maskFilter keep c.2))⟩

/-- `Series.pct_change(lag)`: position `t` holds
`value[t] / value[t - lag] - 1`, and is missing for the first `lag`
positions and wherever either operand is missing. -/
def pctChange (lag : ℕ) (xs : List (Option ℚ)) : List (Option ℚ) :=
  (List.range xs.length).map (fun t =>
    if lag ≤ t then
      match xs.getD (t - lag) none, xs.getD t none with
      | some a, some b => some (b / a - 1)
      | _, _ => none
    else none)

/-- `Series.pct_change(lag) * 100`, the year-over-year (lag 12 or 252)
and month-over-month (lag 1) transform of the CPI and rate agents. -/
def yoyCol (lag : ℕ) (xs : List (Option ℚ)) : List (Option ℚ) :=
  colScale (pctChange lag xs) 100

/-! ## Derivation layer: `process_rates_data` in its three versions -/

/-- `process_rates_data` of `rate_agent_v2.py` (lines 103-128).  When
the three liquidity inputs are present, Net Liquidity is
`FedAssets/1e6 - TGA/1e6 - RRP/1e3` (all rescaled to trillions; the
TGA divisor carries the file's "unit correction"); otherwise the
column is assigned `np.nan`, i.e. an all-missing column of the frame's
row count.  The 10Y-2Y curve is added when both yields are present. -/
def process_rates_data_v2 (df : DataFrame) : DataFrame :=
  let df1 :=
    if hasCol df "Fed Total Assets" && hasCol df "TGA Account" && hasCol df "Reverse Repo" then
      setCol df "Net Liquidity"
        (colSub (colSub (colDiv (getColD df "Fed Total Assets") 1000000)
                        (colDiv (getColD df "TGA Account") 1000000))
                (colDiv (getColD df "Reverse Repo") 1000))
    else
      setCol df "Net Liquidity" (List.replicate df.index.length none)
  if hasCol df1 "US 10Y Yield" && hasCol df1 "US 2Y Yield" then
    setCol df1 "Curve 10Y-2Y" (colSub (getColD df1 "US 10Y Yield") (getColD df1 "US 2Y Yield"))
  else df1

/-- `process_rates_data` of `rate_agent_v3.py` (lines 110-137): the v2
net-liquidity and curve steps plus SOFR-IORB liquidity stress, the
252-day Supercore YoY and bank reserves rescaled from billions to
trillions, each added only when its inputs are present. -/
def process_rates_data_v3 (df : DataFrame) : DataFrame :=
  let df1 :=
    if hasCol df "Fed Total Assets" && hasCol df "TGA Account" && hasCol df "Reverse Repo" then
      setCol df "Net Liquidity"
        (colSub (colSub (colDiv (getColD df "Fed Total Assets") 1000000)
                        (colDiv (getColD df "TGA Account") 1000000))
                (colDiv (getColD df "Reverse Repo") 1000))
    else
      setCol df "Net Liquidity" (List.replicate df.index.length none)
  let df2 :=
    if hasCol df1 "SOFR Rate" && hasCol df1 "IORB Rate" then
      setCol df1 "Liquidity Stress" (colSub (getColD df1 "SOFR Rate") (getColD df1 "IORB Rate"))
    else df1
  let df3 :=
    if hasCol df2 "Supercore CPI Index" then
      setCol df2 "Supercore YoY" (yoyCol 252 (getColD df2 "Supercore CPI Index"))
    else df2
  let df4 :=
    if hasCol df3 "Bank Reserves" then
      setCol df3 "Bank Reserves Trillions" (colDiv (getColD df3 "Bank Reserves") 1000)
    else df3
  if hasCol df4 "US 10Y Yield" && hasCol df4 "US 2Y Yield" then
    setCol df4 "Curve 10Y-2Y" (colSub (getColD df4 "US 10Y Yield") (getColD df4 "US 2Y Yield"))
  else df4

/-- `process_rates_data` of `rate_agent.py` (lines 118-145): forward
fill, drop rows with a missing 10Y yield (`KeyError` when the column is
absent), then Net Liquidity with divisors 1e6 / 1e3 / 1e3 — this file's
comments label `WTREGEN` (TGA) as billions and divide it by 1000 —
added only when all three inputs are present (no `else` branch), and
finally the curve. -/
def process_rates_data_v1 (df : DataFrame) : Except String DataFrame :=
  let dff := dfFfill df
  match dropnaSubset dff "US 10Y Yield" with
  | .error e => .error e
  | .ok df2 =>
      let df3 :=
        if hasCol df2 "Fed Total Assets" && hasCol df2 "TGA Account" && hasCol df2 "Reverse Repo" then
          setCol df2 "Net Liquidity"
            (colSub (colSub (colDiv (getColD df2 "Fed Total Assets") 1000000)
                            (colDiv (getColD df2 "TGA Account") 1000))
                    (colDiv (getColD df2 "Reverse Repo") 1000))
        else df2
      .ok (if hasCol df3 "US 10Y Yield" && hasCol df3 "US 2Y Yield" then
            setCol df3 "Curve 10Y-2Y"
              (colSub (getColD df3 "US 10Y Yield") (getColD df3 "US 2Y Yield"))
          else df3)

/-! ## Derivation layer: `process_data` of the CPI agents -/

/-- The Index-type columns of `cpi_agent_v2.1.py` (`index_cols`). -/
def index_cols_v21 : List String :=
  ["CPI (Headline)", "CPI (Core)", "PPI (Final Demand)", "PCE (Headline)",
   "Supercore (Svcs ex Shelter)", "Used Cars", "CPI Shelter", "China Import Prices"]

/-- The Rate-type columns of `cpi_agent_v2.1.py` (`rate_cols`). -/
def rate_cols_v21 : List String :=
  ["Sticky CPI", "5Y Breakeven", "10Y Real Yield"]

/-- `process_data` of `cpi_agent_v2.1.py` (lines 80-106), restricted to
the `df_yoy` output (the raw frame is returned unchanged alongside it):
each present Index-type column contributes its 12-period percent
change, each present Rate-type column is copied unchanged, and the
profit spread is added when both of its inputs landed in `df_yoy`.
The fresh `df_yoy` frame inherits the calendar index of `df`. -/
def process_data_v21 (df : DataFrame) : DataFrame :=
  let y1 := index_cols_v21.foldl
    (fun acc col => if hasCol df col then setCol acc col (yoyCol 12 (getColD df col)) else acc)
    ⟨df.index, []⟩
  let y2 := rate_cols_v21.foldl
    (fun acc col => if hasCol df col then setCol acc col (getColD df col) else acc) y1
  if hasCol y2 "CPI (Headline)" && hasCol y2 "PPI (Final Demand)" then
    setCol y2 "Profit Spread"
      (colSub (getColD y2 "CPI (Headline)") (getColD y2 "PPI (Final Demand)"))
  else y2

/-- `process_data` of `cpi_agent.py` (lines 55-72): YoY and MoM percent
changes of every column, then the Sticky CPI column of `df_yoy` is
overwritten with the raw (already percentage) values and its MoM column
is set to `np.nan` (all-missing); the dormant `US_10Y_Yield` branch
only patches `df_yoy`.  Returns `(df, df_yoy, df_mom)`. -/
def process_data_v1 (df : DataFrame) : DataFrame × DataFrame × DataFrame :=
  let df_yoy0 : DataFrame := ⟨df.index, df.cols.map (fun c => (c.1, yoyCol 12 c.2))⟩
  let df_mom0 : DataFrame := ⟨df.index, df.cols.map (fun c => (c.1, yoyCol 1 c.2))⟩
  let p :=
    if hasCol df "Sticky CPI" then
      (setCol df_yoy0 "Sticky CPI" (getColD df "Sticky CPI"),
       setCol df_mom0 "Sticky CPI" (List.replicate df.index.length none))
    else (df_yoy0, df_mom0)
  let df_yoy2 :=
    if hasCol df "US_10Y_Yield" then setCol p.1 "US_10Y_Yield" (getColD df "US_10Y_Yield")
    else p.1
  (df, df_yoy2, p.2)

/-! ## Fetch step -/

/-- The ticker table of `cpi_agent_v2.1.py` `get_macro_data`. -/
def tickers_v21 : List (String × String) :=
  [("CPIAUCSL", "CPI (Headline)"), ("CPILFESL", "CPI (Core)"),
   ("PPIFIS", "PPI (Final Demand)"), ("PCEPI", "PCE (Headline)"),
   ("CUSR0000SAD", "Supercore (Svcs ex Shelter)"), ("CUSR0000SETA02", "Used Cars"),
   ("CUSR0000SAH1", "CPI Shelter"), ("CHNTOT", "China Import Prices"),
   ("STICKCPIM159SFRBATL", "Sticky CPI"), ("T5YIE", "5Y Breakeven"),
   ("DFII10", "10Y Real Yield")]

/-- The ticker table of `rate_agent_v2.py` `get_rates_data`. -/
def tickers_rates_v2 : List (String × String) :=
  [("DGS10", "US 10Y Yield"), ("DGS2", "US 2Y Yield"), ("FEDFUNDS", "Fed Funds Rate"),
   ("DFII10", "10Y Real Yield"), ("T10Y3M", "10Y-3M Spread"),
   ("WALCL", "Fed Total Assets"), ("WTREGEN", "TGA Account"), ("RRPONTSYD", "Reverse Repo"),
   ("BAMLH0A0HYM2", "High Yield Spread"), ("NFCI", "Financial Conditions"),
   ("SP500", "S&P 500")]

/-- `get_macro_data` of the CPI agents (`cpi_agent.py` lines 44-52,
`cpi_agent_v2.1.py` lines 70-78): one independent fetch per code over a
`fetch` oracle standing for `fred.get_series`; a successful fetch is
assigned as a column (`df[name] = series`), a failed one is reported
(`st.error`) and skipped, and the loop always continues with the next
code. -/
def get_macro_data (fetch : String → Option (List (Option ℚ)))
    (tickers : List (String × String)) (idx : List ℕ) : DataFrame :=
  tickers.foldl
    (fun acc cn =>
      match fetch cn.1 with
      | some s => setCol acc cn.2 s
      | none => acc)
    ⟨idx, []⟩

/-- `get_rates_data` of `rate_agent_v2.py` (lines 58-101): collect the
successfully fetched series in order (the failure branch only prints a
warning), return an empty frame when every fetch failed, otherwise
concatenate, forward fill, and drop the rows missing the 10Y yield
(a `KeyError` — the error case — when that anchor column is absent). -/
def get_rates_data_v2 (fetch : String → Option (List (Option ℚ))) (idx : List ℕ) :
    Except String DataFrame :=
  let frames := tickers_rates_v2.filterMap
    (fun cn => (fetch cn.1).map (fun s => (cn.2, s)))
  if frames.isEmpty then .ok ⟨[], []⟩
  else dropnaSubset (dfFfill ⟨idx, frames⟩) "US 10Y Yield"

/-- The render cycle of `cpi_agent_v2.1.py` `main` (lines 150-160) up
to the derived table: fetch, halt with a reported error when the
anchor column `CPI (Headline)` is absent, otherwise drop the rows
without an anchor value and derive `df_yoy`. -/
def main_v21 (fetch : String → Option (List (Option ℚ))) (idx : List ℕ) :
    Except String DataFrame :=
  let raw := get_macro_data fetch tickers_v21 idx
  if hasCol raw "CPI (Headline)" then
    match dropnaSubset raw "CPI (Headline)" with
    | .error e => .error e
    | .ok raw2 => .ok (process_data_v21 raw2)
  else .error "cannot fetch CPI"

/-! ## Projection simulator (`cpi_agent.py` tab3, `cpi_agent_v2.1.py` tab5) -/

/-- `base_indices = history.iloc[-13:-13+horizon].values` under Python
slice semantics for negative bounds (clamped to the front of the list;
both sources fix `horizon = 6 ≤ 13`).  With at least 13 observations
this is the 6 levels starting exactly 12 periods before the latest
one. -/
def base_vals (history : List ℚ) (horizon : ℕ) : List ℚ :=
  (history.drop (history.length - 13)).take
    ((history.length - (13 - horizon)) - (history.length - 13))

/-- The simulator loop: at each step compound the level by
`(1 + rate)`, then emit the implied YoY against `base[i]` when a base
value exists at offset `i`, and `NaN` otherwise.  The final argument is
the remaining number of steps. -/
def simulated_yoy_go (rate : ℚ) (base : List ℚ) : ℚ → ℕ → ℕ → List (Option ℚ)
  | _, _, 0 => []
  | curr, i, fuel + 1 =>
      let c := curr * (1 + rate)
      (if i < base.length then some ((c / base.getD i 0 - 1) * 100) else none)
        :: simulated_yoy_go rate base c (i + 1) fuel

/-- The base-effect simulator of `cpi_agent.py` lines 146-164 and
`cpi_agent_v2.1.py` lines 285-296: start from the latest historical
level and run the loop for `horizon` steps.  `history` is the
non-missing anchor column (`raw_df['CPI (Headline)']` after its
dropna), so the latest level is its last entry. -/
def simulated_yoy (history : List ℚ) (rate : ℚ) (horizon : ℕ) : List (Option ℚ) :=
  simulated_yoy_go rate (base_vals history horizon) (history.getLastD 0) 0 horizon

/-! ## Helper lemmas about the frame operations -/

theorem getCols_setCols_self (cs : List (String × List (Option ℚ))) (n : String)
    (v : List (Option ℚ)) : getCols (setCols cs n v) n = some v := by
  induction cs with
  | nil => simp [setCols, getCols]
  | cons c cs ih =>
      by_cases h : c.1 = n
      · simp [setCols, getCols, h]
      · simp [setCols, getCols, h, ih]

theorem getCols_setCols_ne (cs : List (String × List (Option ℚ))) (n m : String)
    (v : List (Option ℚ)) (h : m ≠ n) : getCols (setCols cs n v) m = getCols cs m := by
  have h' : ¬n = m := fun hc => h hc.symm
  induction cs with
  | nil => simp [setCols, getCols, h']
  | cons c cs ih =>
      by_cases hc : c.1 = n
      · subst hc
        simp [setCols, getCols, h']
      · by_cases hm : c.1 = m <;> simp [setCols, getCols, hc, hm, h, ih]

theorem getCol_setCol_self (df : DataFrame) (n : String) (v : List (Option ℚ)) :
    getCol (setCol df n v) n = some v :=
  getCols_setCols_self df.cols n v

theorem getCol_setCol_ne (df : DataFrame) (n m : String) (v : List (Option ℚ))
    (h : m ≠ n) : getCol (setCol df n v) m = getCol df m :=
  getCols_setCols_ne df.cols n m v h

theorem index_setCol (df : DataFrame) (n : String) (v : List (Option ℚ)) :
    (setCol df n v).index = df.index := rfl

theorem mem_names_iff_getCols (cs : List (String × List (Option ℚ))) (n : String) :
    n ∈ cs.map Prod.fst ↔ (getCols cs n).isSome := by
  induction cs with
  | nil => simp [getCols]
  | cons c cs ih =>
      by_cases h : c.1 = n
      · simp [getCols, h]
      · have h' : ¬n = c.1 := fun hc => h hc.symm
        simp [getCols, h, h', ih]

theorem mem_colNames_iff_hasCol (df : DataFrame) (n : String) :
    n ∈ colNames df ↔ hasCol df n = true :=
  mem_names_iff_getCols df.cols n

theorem mem_names_setCols (cs : List (String × List (Option ℚ))) (n m : String)
    (v : List (Option ℚ)) : m ∈ (setCols cs n v).map Prod.fst ↔ m ∈ cs.map Prod.fst ∨ m = n := by
  induction cs with
  | nil => simp [setCols]
  | cons c cs ih =>
      by_cases h : c.1 = n
      · subst h
        simp [setCols]
        tauto
      · simp [setCols, h, ih]
        tauto

theorem names_setCols_not_mem (cs : List (String × List (Option ℚ))) (n : String)
    (v : List (Option ℚ)) (h : n ∉ cs.map Prod.fst) :
    (setCols cs n v).map Prod.fst = cs.map Prod.fst ++ [n] := by
  induction cs with
  | nil => simp [setCols]
  | cons c cs ih =>
      simp only [List.map_cons, List.mem_cons] at h
      push_neg at h
      have h1 : ¬c.1 = n := fun hc => h.1 hc.symm
      simp [setCols, h1, ih h.2]

theorem getCols_map_val (f : List (Option ℚ) → List (Option ℚ))
    (cs : List (String × List (Option ℚ))) (m : String) :
    getCols (cs.map (fun c => (c.1, f c.2))) m = (getCols cs m).map f := by
  induction cs with
  | nil => simp [getCols]
  | cons c cs ih => by_cases h : c.1 = m <;> simp [getCols, h, ih]

theorem getCol_dfFfill (df : DataFrame) (n : String) :
    getCol (dfFfill df) n = (getCol df n).map ffill :=
  getCols_map_val ffill df.cols n

theorem colNames_dfFfill (df : DataFrame) : colNames (dfFfill df) = colNames df := by
  simp [colNames, dfFfill]

theorem index_dfFfill (df : DataFrame) : (dfFfill df).index = df.index := rfl

theorem colNames_dropnaSubset (df df' : DataFrame) (n : String)
    (h : dropnaSubset df n = .ok df') : colNames df' = colNames df := by
  unfold dropnaSubset at h
  cases hg : getCol df n with
  | none => simp [hg] at h
  | some v =>
      simp only [hg] at h
      cases h
      simp [colNames]

theorem getCol_dropnaSubset (df df' : DataFrame) (n m : String) (v : List (Option ℚ))
    (hg : getCol df n = some v) (h : dropnaSubset df n = .ok df') :
    getCol df' m = (getCol df m).map (maskFilter (v.map (fun x => x.isSome))) := by
  unfold dropnaSubset at h
  simp only [hg] at h
  cases h
  exact getCols_map_val (maskFilter (v.map fun x => x.isSome)) df.cols m

theorem index_dropnaSubset (df df' : DataFrame) (n : String) (v : List (Option ℚ))
    (hg : getCol df n = some v) (h : dropnaSubset df n = .ok df') :
    df'.index = maskFilter (v.map (fun x => x.isSome)) df.index := by
  unfold dropnaSubset at h
  simp only [hg] at h
  cases h
  rfl

/-! ## Forward-fill characterization -/

theorem getLast?_cons_or (a : ℚ) (l : List ℚ) :
    (a :: l).getLast? = Option.or l.getLast? (some a) := by
  induction l generalizing a with
  | nil => simp
  | cons b l ih =>
      rw [List.getLast?_cons_cons, ih b]
      cases hl : l.getLast? <;> simp [Option.or]

theorem ffillGo_get? (xs : List (Option ℚ)) :
    ∀ (acc : Option ℚ) (i : ℕ), i < xs.length →
      (ffillGo acc xs).get? i =
        some (Option.or ((xs.take (i + 1)).filterMap id).getLast? acc) := by
  induction xs with
  | nil => intro acc i hi; simp at hi
  | cons x xs ih =>
      intro acc i hi
      match x, i with
      | some v, 0 => simp [ffillGo]
      | some v, i + 1 =>
          have h := ih (some v) i (by simpa using hi)
          simp only [ffillGo, List.get?, h, List.take, List.filterMap, id]
          rw [getLast?_cons_or]
          cases hl : ((xs.take (i + 1)).filterMap id).getLast? <;> simp [Option.or]
      | none, 0 => simp [ffillGo]
      | none, i + 1 =>
          have h := ih acc i (by simpa using hi)
          simp only [ffillGo, List.get?, h, List.take, List.filterMap, id]

/-! ## Row-mask characterization -/

theorem maskFilter_nil_left {α : Type} (xs : List α) :
    maskFilter ([] : List Bool) xs = [] := by
  cases xs <;> rfl

theorem maskFilter_nil_right {α : Type} (keep : List Bool) :
    maskFilter keep ([] : List α) = [] := by
  cases keep with
  | nil => rfl
  | cons k ks => cases k <;> rfl

theorem maskFilter_true_cons {α : Type} (ks : List Bool) (x : α) (xs : List α) :
    maskFilter (true :: ks) (x :: xs) = x :: maskFilter ks xs := rfl

theorem maskFilter_false_cons {α : Type} (ks : List Bool) (x : α) (xs : List α) :
    maskFilter (false :: ks) (x :: xs) = maskFilter ks xs := rfl

theorem mem_of_mem_maskFilter {α : Type} :
    ∀ (keep : List Bool) (xs : List α) (x : α), x ∈ maskFilter keep xs → x ∈ xs := by
  intro keep
  induction keep with
  | nil => intro xs x h; rw [maskFilter_nil_left] at h; simp at h
  | cons k ks ih =>
      intro xs x h
      cases xs with
      | nil => rw [maskFilter_nil_right] at h; simp at h
      | cons y ys =>
          cases k with
          | true =>
              rw [maskFilter_true_cons, List.mem_cons] at h
              rcases h with h | h
              · simp [h]
              · exact List.mem_cons_of_mem y (ih ys x h)
          | false =>
              rw [maskFilter_false_cons] at h
              exact List.mem_cons_of_mem y (ih ys x h)

theorem get_mem_maskFilter_iff {α : Type} [DecidableEq α] :
    ∀ (xs : List α) (keep : List Bool), xs.Nodup → keep.length = xs.length →
      ∀ (i : ℕ) (hi : i < xs.length),
        (xs.get ⟨i, hi⟩ ∈ maskFilter keep xs ↔ keep.getD i false = true) := by
  intro xs
  induction xs with
  | nil => intro keep hnd hlen i hi; simp at hi
  | cons y ys ih =>
      intro keep hnd hlen i hi
      cases keep with
      | nil => simp at hlen
      | cons k ks =>
          have hnd' : ys.Nodup := (List.nodup_cons.mp hnd).2
          have hny : y ∉ ys := (List.nodup_cons.mp hnd).1
          have hlen' : ks.length = ys.length := by simpa using hlen
          match i with
          | 0 =>
              show (y ∈ maskFilter (k :: ks) (y :: ys) ↔ _)
              cases k with
              | true => simp [maskFilter_true_cons]
              | false =>
                  rw [maskFilter_false_cons]
                  constructor
                  · intro h; exact absurd (mem_of_mem_maskFilter ks ys y h) hny
                  · intro h; simp at h
          | i + 1 =>
              have hi' : i < ys.length := by simpa using hi
              have hne : ys.get ⟨i, hi'⟩ ≠ y :=
                fun he => hny (he ▸ List.get_mem ys i hi')
              show (ys.get ⟨i, hi'⟩ ∈ maskFilter (k :: ks) (y :: ys) ↔
                (k :: ks).getD (i + 1) false = true)
              cases k with
              | true =>
                  rw [maskFilter_true_cons, List.mem_cons, List.getD_cons_succ]
                  constructor
                  · intro h
                    rcases h with h | h
                    · exact absurd h hne
                    · exact (ih ks hnd' hlen' i hi').mp h
                  · intro h
                    exact Or.inr ((ih ks hnd' hlen' i hi').mpr h)
              | false =>
                  rw [maskFilter_false_cons, List.getD_cons_succ]
                  exact ih ks hnd' hlen' i hi'

/-! ## Percent-change access and simulator closed form -/

theorem pctChange_getD (lag : ℕ) (xs : List (Option ℚ)) (t : ℕ)
    (ht : t < xs.length) (hlag : lag ≤ t) :
    (pctChange lag xs).getD t none =
      (match xs.getD (t - lag) none, xs.getD t none with
       | some a, some b => some (b / a - 1)
       | _, _ => none) := by
  unfold pctChange
  rw [List.getD_eq_getElem?_getD]
  rw [List.getElem?_map]
  rw [List.getElem?_range ht]
  simp [hlag]

theorem yoyCol_getD (lag : ℕ) (xs : List (Option ℚ)) (t : ℕ) (a b : ℚ)
    (ht : t < xs.length) (hlag : lag ≤ t)
    (ha : xs.getD (t - lag) none = some a) (hb : xs.getD t none = some b) :
    (yoyCol lag xs).getD t none = some ((b / a - 1) * 100) := by
  unfold yoyCol colScale
  rw [List.getD_eq_getElem?_getD, List.getElem?_map]
  have hlen : t < (pctChange lag xs).length := by
    simpa [pctChange] using ht
  rw [List.getElem?_eq_getElem hlen]
  have := pctChange_getD lag xs t ht hlag
  rw [ha, hb] at this
  rw [List.getD_eq_getElem?_getD, List.getElem?_eq_getElem hlen] at this
  simp at this
  simp [this]

theorem simulated_yoy_go_get? (rate : ℚ) (base : List ℚ) :
    ∀ (fuel : ℕ) (curr : ℚ) (i j : ℕ), j < fuel →
      (simulated_yoy_go rate base curr i fuel).get? j =
        some (if i + j < base.length then
                some ((curr * (1 + rate) ^ (j + 1) / base.getD (i + j) 0 - 1) * 100)
              else none) := by
  intro fuel
  induction fuel with
  | zero => intro curr i j hj; omega
  | succ fuel ih =>
      intro curr i j hj
      match j with
      | 0 =>
          simp only [simulated_yoy_go, List.get?, Nat.add_zero, Nat.zero_add, pow_one]
      | j + 1 =>
          have h := ih (curr * (1 + rate)) (i + 1) j (by omega)
          simp only [simulated_yoy_go, List.get?, h]
          have harith : curr * (1 + rate) * (1 + rate) ^ (j + 1) =
              curr * (1 + rate) ^ (j + 1 + 1) := by ring
          have hidx : i + 1 + j = i + (j + 1) := by omega
          rw [harith, hidx]

theorem base_vals_length (history : List ℚ) (h13 : 13 ≤ history.length) :
    (base_vals history 6).length = 6 := by
  unfold base_vals
  rw [List.length_take, List.length_drop]
  omega

theorem base_vals_getD (history : List ℚ) (i : ℕ) (hi : i < 6)
    (h13 : 13 ≤ history.length) :
    (base_vals history 6).getD i 0 = history.getD (history.length - 13 + i) 0 := by
  unfold base_vals
  rw [List.getD_eq_getElem?_getD, List.getD_eq_getElem?_getD]
  rw [List.getElem?_take, List.getElem?_drop]
  have hcond : i < history.length - (13 - 6) - (history.length - 13) := by omega
  simp [hcond]

/-! ## Column bookkeeping of the fetch loop -/

theorem colNames_get_macro_data_go (fetch : String → Option (List (Option ℚ))) :
    ∀ (tickers : List (String × String)) (df : DataFrame),
      (colNames df ++ tickers.map Prod.snd).Nodup →
      colNames (tickers.foldl
        (fun acc cn =>
          match fetch cn.1 with
          | some s => setCol acc cn.2 s
          | none => acc) df) =
      colNames df ++ (tickers.filter (fun cn => (fetch cn.1).isSome)).map Prod.snd := by
  intro tickers
  induction tickers with
  | nil => intro df hnd; simp
  | cons cn rest ih =>
      intro df hnd
      simp only [List.map_cons, List.foldl_cons] at hnd ⊢
      cases hf : fetch cn.1 with
      | none =>
          have hnd' : (colNames df ++ rest.map Prod.snd).Nodup := by
            refine List.Nodup.sublist ?_ hnd
            exact List.Sublist.append_left ((List.Sublist.refl _).cons cn.2) (colNames df)
          rw [ih df hnd']
          simp [List.filter_cons, hf]
      | some s =>
          have hmem : cn.2 ∉ colNames df := by
            intro hmem
            rcases List.nodup_append.mp hnd with ⟨_, _, hdisj⟩
            exact hdisj hmem (List.mem_cons_self cn.2 (rest.map Prod.snd))
          have hnames : colNames (setCol df cn.2 s) = colNames df ++ [cn.2] := by
            show (setCols df.cols cn.2 s).map Prod.fst = _
            exact names_setCols_not_mem df.cols cn.2 s hmem
          have hnd' : (colNames (setCol df cn.2 s) ++ rest.map Prod.snd).Nodup := by
            rw [hnames, List.append_assoc]
            simpa using hnd
          rw [ih (setCol df cn.2 s) hnd', hnames]
          simp [List.filter_cons, hf, List.append_assoc]

theorem colNames_get_macro_data (fetch : String → Option (List (Option ℚ)))
    (tickers : List (String × String)) (idx : List ℕ)
    (hnd : (tickers.map Prod.snd).Nodup) :
    colNames (get_macro_data fetch tickers idx) =
      (tickers.filter (fun cn => (fetch cn.1).isSome)).map Prod.snd := by
  unfold get_macro_data
  have := colNames_get_macro_data_go fetch tickers ⟨idx, []⟩ (by simpa [colNames])
  simpa [colNames] using this

theorem names_filterMap_fetch (fetch : String → Option (List (Option ℚ))) :
    ∀ (tickers : List (String × String)),
      (tickers.filterMap (fun cn => (fetch cn.1).map (fun s => (cn.2, s)))).map Prod.fst =
        (tickers.filter (fun cn => (fetch cn.1).isSome)).map Prod.snd := by
  intro tickers
  induction tickers with
  | nil => rfl
  | cons cn rest ih =>
      cases hf : fetch cn.1 <;>
        simp [List.filterMap_cons, List.filter_cons, hf, ih]

/-! ## Frame conditions of the derivation step -/

/-- `Frame a b allowed`: frame `b` differs from frame `a` at most in the
columns named in `allowed` — same index, same value of every other
column, and no new column outside `allowed`. -/
def Frame (a b : DataFrame) (allowed : List String) : Prop :=
  b.index = a.index ∧
  (∀ m, m ∉ allowed → getCol b m = getCol a m) ∧
  (∀ m, m ∈ colNames b → m ∈ colNames a ∨ m ∈ allowed)

theorem frame_refl (a : DataFrame) (allowed : List String) : Frame a a allowed :=
  ⟨rfl, fun _ _ => rfl, fun _ h => Or.inl h⟩

theorem frame_trans {a b c : DataFrame} {allowed : List String}
    (h1 : Frame a b allowed) (h2 : Frame b c allowed) : Frame a c allowed := by
  refine ⟨h2.1.trans h1.1, fun m hm => (h2.2.1 m hm).trans (h1.2.1 m hm), fun m hm => ?_⟩
  rcases h2.2.2 m hm with h | h
  · exact h1.2.2 m h
  · exact Or.inr h

theorem frame_setCol (a : DataFrame) (n : String) (v : List (Option ℚ))
    (allowed : List String) (hn : n ∈ allowed) : Frame a (setCol a n v) allowed := by
  refine ⟨rfl, fun m hm => ?_, fun m hm => ?_⟩
  · exact getCol_setCol_ne a n m v (fun he => hm (he ▸ hn))
  · rcases (mem_names_setCols a.cols n m v).mp hm with h | h
    · exact Or.inl h
    · exact Or.inr (h ▸ hn)

theorem frame_chain_step (L : List String) (df a : DataFrame) (h : Frame df a L)
    (c : Bool) (n : String) (v : List (Option ℚ)) (hn : n ∈ L) :
    Frame df (if c then setCol a n v else a) L := by
  cases c
  · simpa using h
  · simpa using frame_trans h (frame_setCol a n v L hn)

theorem frame_ite_setCol2 (L : List String) (df : DataFrame) (c : Bool) (n : String)
    (v w : List (Option ℚ)) (hn : n ∈ L) :
    Frame df (if c then setCol df n v else setCol df n w) L := by
  cases c
  · simpa using frame_setCol df n w L hn
  · simpa using frame_setCol df n v L hn

theorem frame_process_rates_data_v2 (df : DataFrame) :
    Frame df (process_rates_data_v2 df) ["Net Liquidity", "Curve 10Y-2Y"] := by
  refine frame_chain_step _ _ _ ?_ _ _ _ (by simp)
  exact frame_ite_setCol2 _ _ _ _ _ _ (by simp)

theorem frame_process_rates_data_v3 (df : DataFrame) :
    Frame df (process_rates_data_v3 df)
      ["Net Liquidity", "Liquidity Stress", "Supercore YoY",
       "Bank Reserves Trillions", "Curve 10Y-2Y"] := by
  refine frame_chain_step _ _ _ ?_ _ _ _ (by simp)
  refine frame_chain_step _ _ _ ?_ _ _ _ (by simp)
  refine frame_chain_step _ _ _ ?_ _ _ _ (by simp)
  refine frame_chain_step _ _ _ ?_ _ _ _ (by simp)
  exact frame_ite_setCol2 _ _ _ _ _ _ (by simp)

/-! ## Access through conditional column assignments -/

theorem getCol_chain_step (a : DataFrame) (c : Bool) (n m : String)
    (v : List (Option ℚ)) (hne : m ≠ n) :
    getCol (if c then setCol a n v else a) m = getCol a m := by
  cases c
  · simp
  · simp [getCol_setCol_ne a n m v hne]

theorem getCol_ite_setCol2_ne (a : DataFrame) (c : Bool) (n m : String)
    (v w : List (Option ℚ)) (hne : m ≠ n) :
    getCol (if c then setCol a n v else setCol a n w) m = getCol a m := by
  cases c <;> simp [getCol_setCol_ne a n m _ hne]

theorem hasCol_chain_step (a : DataFrame) (c : Bool) (n m : String)
    (v : List (Option ℚ)) (hne : m ≠ n) :
    hasCol (if c then setCol a n v else a) m = hasCol a m := by
  unfold hasCol
  rw [getCol_chain_step a c n m v hne]

theorem hasCol_ite_setCol2_ne (a : DataFrame) (c : Bool) (n m : String)
    (v w : List (Option ℚ)) (hne : m ≠ n) :
    hasCol (if c then setCol a n v else setCol a n w) m = hasCol a m := by
  unfold hasCol
  rw [getCol_ite_setCol2_ne a c n m v w hne]

theorem getColD_chain_step (a : DataFrame) (c : Bool) (n m : String)
    (v : List (Option ℚ)) (hne : m ≠ n) :
    getColD (if c then setCol a n v else a) m = getColD a m := by
  unfold getColD
  rw [getCol_chain_step a c n m v hne]

theorem getColD_ite_setCol2_ne (a : DataFrame) (c : Bool) (n m : String)
    (v w : List (Option ℚ)) (hne : m ≠ n) :
    getColD (if c then setCol a n v else setCol a n w) m = getColD a m := by
  unfold getColD
  rw [getCol_ite_setCol2_ne a c n m v w hne]

theorem getCol_cond_write (a : DataFrame) (c : Bool) (hc : c = true) (wname : String)
    (v : List (Option ℚ)) :
    getCol (if c then setCol a wname v else a) wname = some v := by
  rw [hc]
  simp [getCol_setCol_self]

theorem getCol_foldl_other (df : DataFrame) (g : String → List (Option ℚ)) :
    ∀ (L : List String) (acc : DataFrame) (r : String), r ∉ L →
      getCol (L.foldl (fun a c => if hasCol df c then setCol a c (g c) else a) acc) r =
        getCol acc r := by
  intro L
  induction L with
  | nil => intro acc r _; rfl
  | cons c rest ih =>
      intro acc r hr
      rw [List.foldl_cons]
      have hrc : r ≠ c := fun he => hr (he ▸ List.mem_cons_self c rest)
      rw [ih _ r (fun hm => hr (List.mem_cons_of_mem c hm))]
      exact getCol_chain_step acc _ c r (g c) hrc

theorem getCol_foldl_write (df : DataFrame) (g : String → List (Option ℚ)) :
    ∀ (L : List String) (acc : DataFrame) (r : String), L.Nodup → r ∈ L →
      hasCol df r = true →
      getCol (L.foldl (fun a c => if hasCol df c then setCol a c (g c) else a) acc) r =
        some (g r) := by
  intro L
  induction L with
  | nil => intro acc r _ hr; simp at hr
  | cons c rest ih =>
      intro acc r hnd hr hhas
      rw [List.foldl_cons]
      by_cases hrc : r = c
      · subst hrc
        have hnotin : r ∉ rest := (List.nodup_cons.mp hnd).1
        rw [getCol_foldl_other df g rest _ r hnotin, hhas]
        simp [getCol_setCol_self]
      · have hr' : r ∈ rest := by
          rcases List.mem_cons.mp hr with h | h
          · exact absurd h hrc
          · exact h
        exact ih _ r (List.nodup_cons.mp hnd).2 hr' hhas

theorem mem_names_chain_step (a : DataFrame) (c : Bool) (n m : String)
    (v : List (Option ℚ)) :
    m ∈ colNames (if c then setCol a n v else a) → m ∈ colNames a ∨ m = n := by
  cases c
  · intro h
    exact Or.inl (by simpa using h)
  · intro h
    exact (mem_names_setCols a.cols n m v).mp (by simpa [colNames, setCol] using h)

/-! ## Concrete frames used to evaluate the code at specific inputs -/

/-- The aligned row of the spec's unit-normalization example:
FedAssets = 9,000,000 (native millions), TGA = 700,000 (native
millions), RRP = 500 (native billions), with an anchor yield so that
`rate_agent.py`'s dropna step keeps the row. -/
def dfUnits : DataFrame :=
  ⟨[0], [("US 10Y Yield", [some 4]), ("Fed Total Assets", [some 9000000]),
         ("TGA Account", [some 700000]), ("Reverse Repo", [some 500])]⟩

/-- An aligned table whose `Reverse Repo` column is absent. -/
def dfNoRRP : DataFrame :=
  ⟨[0], [("US 10Y Yield", [some 4]), ("Fed Total Assets", [some 9000000]),
         ("TGA Account", [some 700000])]⟩

/-- A two-row table whose anchor column is complete but whose second
row is missing a value in another column. -/
def dfAnchored : DataFrame :=
  ⟨[0, 1], [("CPI (Headline)", [some 1, some 2]), ("Sticky CPI", [some 3, none])]⟩

/-- A table that already carries a column named `Net Liquidity`. -/
def dfPreNamed : DataFrame := ⟨[0], [("Net Liquidity", [some 5])]⟩

/-- A ten-observation history, shorter than the 13 observations the
simulator's base slice expects. -/
def histShort : List ℚ := [1, 2, 3, 4, 5, 6, 7, 8, 9, 10]

/-! ## C1 — unit normalization of the net-liquidity inputs -/

/-- Claim C1 (code bug in `rate_agent.py`).  On the spec's example row
(FedAssets = 9,000,000 millions, TGA = 700,000 millions, RRP = 500
billions), the corrected normalizer of `rate_agent_v2.py` and
`rate_agent_v3.py` divides FedAssets and TGA by 1e6 and RRP by 1e3 and
yields NetLiquidity = 9.0 - 0.7 - 0.5 = 7.8 exactly as the claim
states; but `rate_agent.py` divides TGA by 1e3 (its comment labels
`WTREGEN` as billions, the very label `rate_agent_v2.py`'s "unit
correction" comments overturn), yielding TGA_T = 700 and
NetLiquidity = 9 - 700 - 0.5 = -691.5 instead of 7.8. -/
theorem netLiquidity_unit_evaluation :
    getCol (process_rates_data_v2 dfUnits) "Net Liquidity" = some [some (39 / 5)] ∧
    getCol (process_rates_data_v3 dfUnits) "Net Liquidity" = some [some (39 / 5)] ∧
    (match process_rates_data_v1 dfUnits with
     | .ok d => getCol d "Net Liquidity"
     | .error _ => none) = some [some (-1383 / 2)] := by
  refine ⟨?_, ?_, ?_⟩
  · simp only [process_rates_data_v2, dfUnits, hasCol, getCol, getCols, setCol, setCols,
      getColD, colDiv, colSub, List.zipWith, List.map, Option.map, Option.getD,
      Option.isSome, String.reduceEq, reduceIte, Bool.and_self, Bool.and_true, Bool.true_and]
    norm_num
  · simp only [process_rates_data_v3, dfUnits, hasCol, getCol, getCols, setCol, setCols,
      getColD, colDiv, colSub, yoyCol, colScale, pctChange, List.zipWith, List.map,
      Option.map, Option.getD, Option.isSome, String.reduceEq, reduceIte, Bool.and_self,
      Bool.and_true, Bool.true_and, Bool.and_false, Bool.false_and]
    norm_num
  · simp only [process_rates_data_v1, dfUnits, hasCol, getCol, getCols, setCol, setCols,
      getColD, colDiv, colSub, List.zipWith, List.map, Option.map, Option.getD,
      Option.isSome, String.reduceEq, reduceIte, Bool.and_self, Bool.and_true, Bool.true_and,
      dfFfill, ffill, ffillGo, dropnaSubset, maskFilter]
    norm_num

/-! ## C2 — composite metric on missing inputs -/

/-- Claim C2, counterexample.  `rate_agent_v2.py` line 122 assigns
`df['Net Liquidity'] = np.nan` when a required input is missing, so on
a table without a `Reverse Repo` column the `Net Liquidity` column is
present (as an all-missing column) — the claim's "never present ... as
an all-missing column" is false. -/
theorem netLiquidity_present_when_rrp_absent :
    "Reverse Repo" ∉ colNames dfNoRRP ∧
    getCol (process_rates_data_v2 dfNoRRP) "Net Liquidity" = some [none] := by
  constructor
  · simp [dfNoRRP, colNames]
  · simp only [process_rates_data_v2, dfNoRRP, hasCol, getCol, getCols, setCol, setCols,
      getColD, Option.isSome, String.reduceEq, reduceIte, Bool.and_self, Bool.and_true,
      Bool.true_and, Bool.and_false, Bool.false_and, List.replicate]

/-- Claim C2, amended.  When `Reverse Repo` is absent from the aligned
table, `rate_agent_v2.py`'s `process_rates_data` emits `Net Liquidity`
as an all-missing column (one `NaN` per row — never zero and never
partially computed), whereas `rate_agent.py`'s version, which has no
`else` branch, leaves the metric entirely absent provided the anchor
column is present (so its dropna step succeeds) and the input carries
no column of that name. -/
theorem netLiquidity_missing_input_behavior :
    (∀ df : DataFrame, "Reverse Repo" ∉ colNames df →
       getCol (process_rates_data_v2 df) "Net Liquidity" =
         some (List.replicate df.index.length none)) ∧
    (∀ (df : DataFrame) (v : List (Option ℚ)),
       getCol df "US 10Y Yield" = some v →
       "Reverse Repo" ∉ colNames df →
       "Net Liquidity" ∉ colNames df →
       ∃ d, process_rates_data_v1 df = .ok d ∧ "Net Liquidity" ∉ colNames d) := by
  constructor
  · intro df h
    have hrrp : hasCol df "Reverse Repo" = false := by
      cases hb : hasCol df "Reverse Repo"
      · rfl
      · exact absurd ((mem_colNames_iff_hasCol df _).mpr hb) h
    unfold process_rates_data_v2
    rw [hrrp]
    simp only [Bool.and_false, Bool.false_eq_true, if_false]
    refine Eq.trans (getCol_chain_step _ _ _ _ _ (by decide)) ?_
    exact getCol_setCol_self df _ _
  · intro df v hv hrrp hnl
    have h1 : getCol (dfFfill df) "US 10Y Yield" = some (ffill v) := by
      rw [getCol_dfFfill, hv]
      rfl
    have hd : dropnaSubset (dfFfill df) "US 10Y Yield" =
        .ok ⟨maskFilter ((ffill v).map (fun x => x.isSome)) (dfFfill df).index,
             (dfFfill df).cols.map
               (fun c => (c.1, maskFilter ((ffill v).map (fun x => x.isSome)) c.2))⟩ := by
      unfold dropnaSubset
      rw [h1]
    have hnames : colNames (⟨maskFilter ((ffill v).map (fun x => x.isSome)) (dfFfill df).index,
        (dfFfill df).cols.map
          (fun c => (c.1, maskFilter ((ffill v).map (fun x => x.isSome)) c.2))⟩ : DataFrame) =
        colNames df := by
      simp [colNames, dfFfill]
    have hrrp2 : hasCol (⟨maskFilter ((ffill v).map (fun x => x.isSome)) (dfFfill df).index,
        (dfFfill df).cols.map
          (fun c => (c.1, maskFilter ((ffill v).map (fun x => x.isSome)) c.2))⟩ : DataFrame)
        "Reverse Repo" = false := by
      cases hb : hasCol _ "Reverse Repo"
      · rfl
      · exact absurd (hnames ▸ (mem_colNames_iff_hasCol _ _).mpr hb) hrrp
    simp only [process_rates_data_v1]
    rw [hd]
    refine ⟨_, rfl, ?_⟩
    rw [hrrp2]
    simp only [Bool.and_false, Bool.false_eq_true, if_false]
    intro hmem
    rcases mem_names_chain_step _ _ _ _ _ hmem with h | h
    · exact hnl (hnames ▸ h)
    · exact absurd h (by decide)

/-- Witness for C2's amended theorem at the concrete RRP-less table. -/
theorem netLiquidity_missing_input_behavior_witness :
    getCol (process_rates_data_v2 dfNoRRP) "Net Liquidity" =
      some (List.replicate dfNoRRP.index.length none) ∧
    (∃ d, process_rates_data_v1 dfNoRRP = .ok d ∧ "Net Liquidity" ∉ colNames d) := by
  constructor
  · exact netLiquidity_missing_input_behavior.1 dfNoRRP (by decide)
  · exact netLiquidity_missing_input_behavior.2 dfNoRRP [some 4]
      (by decide) (by decide) (by decide)

/-! ## C3 — YoY formula for Index-type columns -/

/-- Claim C3 (confirmed).  The YoY transform applied to Index-type
columns is `(value[t] / value[t - lag] - 1) * 100` with lag 12
(monthly) or 252 (daily): the formula holds at every position at
least `lag` periods in whose pair of operands both observations
exist, `cpi_agent_v2.1.py`'s `process_data` derives every present
Index-type column by exactly this lag-12 transform, and
`rate_agent_v3.py` derives `Supercore YoY` by the lag-252 transform of
its raw index column. -/
theorem yoy_formula_and_pipeline :
    (∀ (lag : ℕ) (xs : List (Option ℚ)) (t : ℕ) (a b : ℚ),
       (lag = 12 ∨ lag = 252) → lag ≤ t → t < xs.length →
       xs.getD (t - lag) none = some a → xs.getD t none = some b →
       (yoyCol lag xs).getD t none = some ((b / a - 1) * 100)) ∧
    (∀ (df : DataFrame) (col : String) (v : List (Option ℚ)),
       col ∈ index_cols_v21 → getCol df col = some v →
       getCol (process_data_v21 df) col = some (yoyCol 12 v)) ∧
    (∀ df : DataFrame, hasCol df "Supercore CPI Index" = true →
       getCol (process_rates_data_v3 df) "Supercore YoY" =
         some (yoyCol 252 (getColD df "Supercore CPI Index"))) := by
  refine ⟨?_, ?_, ?_⟩
  · intro lag xs t a b _ hlag ht ha hb
    exact yoyCol_getD lag xs t a b ht hlag ha hb
  · intro df col v hmem hv
    have hhas : hasCol df col = true := by rw [hasCol, hv]; rfl
    have hrate : col ∉ rate_cols_v21 := by
      have : ∀ c ∈ index_cols_v21, c ∉ rate_cols_v21 := by decide
      exact this col hmem
    have hps : col ≠ "Profit Spread" := by
      have : ∀ c ∈ index_cols_v21, c ≠ "Profit Spread" := by decide
      exact this col hmem
    have hv' : v = getColD df col := by rw [getColD, hv]; rfl
    rw [hv']
    refine Eq.trans (getCol_chain_step _ _ _ _ _ hps) ?_
    refine Eq.trans (getCol_foldl_other df _ rate_cols_v21 _ col hrate) ?_
    exact getCol_foldl_write df _ index_cols_v21 _ col (by decide) hmem hhas
  · intro df hhas
    refine Eq.trans (getCol_chain_step _ _ _ _ _ (by decide)) ?_
    refine Eq.trans (getCol_chain_step _ _ _ _ _ (by decide)) ?_
    refine Eq.trans (getCol_cond_write _ _ ?hc _ _) ?_
    case hc =>
      refine Eq.trans (hasCol_chain_step _ _ _ _ _ (by decide)) ?_
      refine Eq.trans (hasCol_ite_setCol2_ne _ _ _ _ _ _ (by decide)) ?_
      exact hhas
    refine congrArg (fun x => some (yoyCol 252 x)) ?_
    refine Eq.trans (getColD_chain_step _ _ _ _ _ (by decide)) ?_
    exact getColD_ite_setCol2_ne _ _ _ _ _ _ (by decide)

/-- A synthetic index column with value 100 at position 0 and 110
twelve periods later. -/
def xsIndexRoundTrip : List (Option ℚ) :=
  [some 100, some 100, some 100, some 100, some 100, some 100, some 100,
   some 100, some 100, some 100, some 100, some 100, some 110]

/-- Witness for C3: on the synthetic 100 → 110 series twelve periods
apart, YoY at the later point is exactly 10. -/
theorem yoy_formula_and_pipeline_witness :
    (yoyCol 12 xsIndexRoundTrip).getD 12 none = some 10 := by
  have h := yoy_formula_and_pipeline.1 12 xsIndexRoundTrip 12 100 110
    (Or.inl rfl) (by decide) (by decide) (by decide) (by decide)
  norm_num at h
  exact h

/-! ## C4 — projection simulator -/

/-- Claim C4, counterexample.  On a ten-observation history the claim
requires step 0 to be marked undefined (its matching base point, 12
periods before the latest date, does not exist), but Python's clamped
negative slice `iloc[-13:-7]` hands the simulator the first three
observations as bases, so step 0 gets the defined value
`(10 / 1 - 1) * 100 = 900` — while step 3, whose matching base point
(the earliest observation) does exist, is marked undefined. -/
theorem simulator_short_history_misaligned :
    histShort.length = 10 ∧
    (simulated_yoy histShort 0 6).get? 0 = some (some 900) ∧
    (simulated_yoy histShort 0 6).get? 3 = some none := by
  refine ⟨by decide, ?_, by decide⟩
  simp only [simulated_yoy, histShort, base_vals, simulated_yoy_go, List.length_cons,
    List.length_nil, List.getLastD, List.getLast, List.drop, List.take, List.getD,
    List.get?, List.getElem?_cons_zero, Option.getD]
  norm_num [simulated_yoy_go, List.getD]

/-- Claim C4, amended.  With at least 13 historical observations the
simulator behaves exactly as claimed: step `i < 6` compounds the latest
level by `(1 + rate)^(i + 1)` and reports the implied YoY against the
historical level observed 12 periods before the latest date plus `i`
periods forward; and in general every step at or beyond the length of
the sliced base list is marked as having no defined value.  (With
fewer than 13 observations the slice is clamped to the front of the
history, so the bases are not the 12-periods-before levels — the
counterexample.) -/
theorem simulator_base_alignment :
    (∀ (history : List ℚ) (rate : ℚ) (i : ℕ), i < 6 → 13 ≤ history.length →
       (simulated_yoy history rate 6).get? i =
         some (some ((history.getLastD 0 * (1 + rate) ^ (i + 1) /
           history.getD (history.length - 13 + i) 0 - 1) * 100))) ∧
    (∀ (history : List ℚ) (rate : ℚ) (i : ℕ),
       (base_vals history 6).length ≤ i → i < 6 →
       (simulated_yoy history rate 6).get? i = some none) := by
  constructor
  · intro history rate i hi h13
    unfold simulated_yoy
    rw [simulated_yoy_go_get? rate _ 6 _ 0 i hi]
    have hlen := base_vals_length history h13
    have hcond : 0 + i < (base_vals history 6).length := by rw [hlen]; omega
    rw [if_pos hcond, Nat.zero_add, base_vals_getD history i hi h13]
  · intro history rate i hbase hi
    unfold simulated_yoy
    rw [simulated_yoy_go_get? rate _ 6 _ 0 i hi]
    rw [if_neg (by omega)]

/-- A thirteen-observation history, long enough for a full base slice. -/
def histFull : List ℚ :=
  [300, 301, 302, 303, 304, 305, 306, 307, 308, 309, 310, 311, 312]

/-- Witness for C4's amended theorem: on the thirteen-observation
history with zero growth, step 0's implied YoY is
`(312 / 300 - 1) * 100 = 4`, and on the short history step 3 is
undefined. -/
theorem simulator_base_alignment_witness :
    (simulated_yoy histFull 0 6).get? 0 = some (some 4) ∧
    (simulated_yoy histShort 0 6).get? 3 = some none := by
  constructor
  · have h := simulator_base_alignment.1 histFull 0 0 (by decide) (by decide)
    norm_num [histFull] at h
    simpa [List.get?_eq_getElem?, histFull] using h
  · exact simulator_base_alignment.2 histShort 0 3 (by decide) (by decide)

/-! ## C5 — forward fill -/

/-- Claim C5 (confirmed).  `df.ffill()` fills each column
independently, and within one column the filled value at position `i`
is the most recent non-missing observation at any position ≤ `i`
(`getLast?` of the real observations among the first `i + 1` entries),
staying missing when no prior observation exists. -/
theorem forward_fill_per_column :
    (∀ (df : DataFrame) (n : String),
       getCol (dfFfill df) n = (getCol df n).map ffill) ∧
    (∀ (xs : List (Option ℚ)) (i : ℕ), i < xs.length →
       (ffill xs).get? i = some (((xs.take (i + 1)).filterMap id).getLast?)) := by
  constructor
  · exact getCol_dfFfill
  · intro xs i hi
    have h := ffillGo_get? xs none i hi
    unfold ffill
    rw [h]
    cases hl : ((xs.take (i + 1)).filterMap id).getLast? <;> simp [Option.or, hl]

/-- Witness for C5: a column observed only at positions 0 and 3 fills
positions 1 and 2 with the position-0 value. -/
theorem forward_fill_per_column_witness :
    (ffill [some 7, none, none, some 9]).get? 2 = some (some 7) := by
  have h := forward_fill_per_column.2 [some 7, none, none, some 9] 2 (by decide)
  simpa using h

/-! ## C6 — anchor-based row dropping -/

/-- Claim C6, counterexample.  `cpi_agent.py` line 93 calls
`raw_df.dropna()` with no subset, so its drop step removes every row
missing a value in any column: on `dfAnchored` the second row carries
the anchor value 2 (`CPI (Headline)`), yet it is dropped because its
`Sticky CPI` entry is missing — contradicting "no row with an anchor
value is dropped". -/
theorem dropna_all_drops_anchored_row :
    (getColD dfAnchored "CPI (Headline)").getD 1 none = some 2 ∧
    (1 : ℕ) ∈ dfAnchored.index ∧ (1 : ℕ) ∉ (dropnaAll dfAnchored).index := by
  refine ⟨by simp [dfAnchored, getColD, getCol, getCols], by simp [dfAnchored], ?_⟩
  simp [dfAnchored, dropnaAll, maskFilter, List.range, List.range.loop, getColD,
    getCol, getCols]

/-- Claim C6, amended.  In `rate_agent_v2.py`, `rate_agent_v3.py`,
`rate_agent.py` and `cpi_agent_v2.1.py` the drop step is
`dropna(subset=[anchor])`: a row survives exactly when its anchor entry
is non-missing.  In `cpi_agent.py` the drop step is `dropna()` with no
subset: a row survives exactly when every column's entry is
non-missing, so rows holding an anchor value can also be dropped. -/
theorem anchor_row_drop_characterization :
    (∀ (df df' : DataFrame) (n : String) (v : List (Option ℚ)),
       getCol df n = some v → dropnaSubset df n = .ok df' →
       v.length = df.index.length → df.index.Nodup →
       ∀ (i : ℕ) (hi : i < df.index.length),
         (df.index.get ⟨i, hi⟩ ∈ df'.index ↔ (v.getD i none).isSome = true)) ∧
    (∀ df : DataFrame, df.index.Nodup →
       ∀ (i : ℕ) (hi : i < df.index.length),
         (df.index.get ⟨i, hi⟩ ∈ (dropnaAll df).index ↔
           df.cols.all (fun c => (c.2.getD i none).isSome) = true)) := by
  constructor
  · intro df df' n v hg hok hlen hnd i hi
    rw [index_dropnaSubset df df' n v hg hok]
    rw [get_mem_maskFilter_iff df.index (v.map (fun x => x.isSome)) hnd
      (by rw [List.length_map, hlen]) i hi]
    have hiv : i < v.length := by omega
    rw [List.getD_eq_getElem?_getD, List.getElem?_map, List.getElem?_eq_getElem hiv]
    rw [List.getD_eq_getElem?_getD, List.getElem?_eq_getElem hiv]
    simp
  · intro df hnd i hi
    simp only [dropnaAll]
    rw [get_mem_maskFilter_iff df.index _ hnd (by simp) i hi]
    rw [List.getD_eq_getElem?_getD, List.getElem?_map, List.getElem?_range hi]
    simp

/-- A table whose anchor column has a gap at its middle row. -/
def dfGap : DataFrame := ⟨[0, 1, 2], [("US 10Y Yield", [some 1, none, some 3])]⟩

/-- The frame left after dropping `dfGap`'s anchorless middle row. -/
def dfGapOut : DataFrame := ⟨[0, 2], [("US 10Y Yield", [some 1, some 3])]⟩

/-- Witness for C6's amended theorem: the subset drop step keeps
exactly the anchored rows of `dfGap`. -/
theorem anchor_row_drop_characterization_witness :
    dropnaSubset dfGap "US 10Y Yield" = .ok dfGapOut ∧
    (dfGap.index.get ⟨2, by decide⟩ ∈ dfGapOut.index ↔
      (([some 1, none, some 3] : List (Option ℚ)).getD 2 none).isSome = true) := by
  constructor
  · rfl
  · exact anchor_row_drop_characterization.1 dfGap dfGapOut "US 10Y Yield"
      [some 1, none, some 3] (by decide) rfl (by decide) (by decide) 2 (by decide)

/-! ## C7 — Rate-type passthrough -/

/-- Claim C7 (confirmed).  Every present Rate-type column
(`Sticky CPI`, `5Y Breakeven`, `10Y Real Yield`) is copied unchanged
into `cpi_agent_v2.1.py`'s derived table, and in `cpi_agent.py` the
Sticky CPI column of `df_yoy` is likewise the raw values while its
MoM column is recorded as missing at every date. -/
theorem rate_passthrough :
    (∀ (df : DataFrame) (r : String) (v : List (Option ℚ)),
       r ∈ rate_cols_v21 → getCol df r = some v →
       getCol (process_data_v21 df) r = some v) ∧
    (∀ (df : DataFrame) (v : List (Option ℚ)),
       getCol df "Sticky CPI" = some v →
       getCol (process_data_v1 df).2.1 "Sticky CPI" = some v ∧
       getCol (process_data_v1 df).2.2 "Sticky CPI" =
         some (List.replicate df.index.length none)) := by
  constructor
  · intro df r v hmem hv
    have hhas : hasCol df r = true := by rw [hasCol, hv]; rfl
    have hps : r ≠ "Profit Spread" := by
      have hall : ∀ c ∈ rate_cols_v21, c ≠ "Profit Spread" := by decide
      exact hall r hmem
    have hv' : v = getColD df r := by rw [getColD, hv]; rfl
    rw [hv']
    refine Eq.trans (getCol_chain_step _ _ _ _ _ hps) ?_
    exact getCol_foldl_write df _ rate_cols_v21 _ r (by decide) hmem hhas
  · intro df v hv
    have hhas : hasCol df "Sticky CPI" = true := by rw [hasCol, hv]; rfl
    simp only [process_data_v1, hhas, if_true]
    constructor
    · refine Eq.trans (getCol_chain_step _ _ _ _ _ (by decide)) ?_
      rw [getCol_setCol_self, getColD, hv]
      rfl
    · rw [getCol_setCol_self]

/-- A table carrying a Rate-type series with value 3.5. -/
def dfRate : DataFrame := ⟨[0], [("Sticky CPI", [some (7 / 2)])]⟩

/-- Witness for C7 at the concrete Rate-type value 3.5: it passes
through unchanged and its MoM output is missing. -/
theorem rate_passthrough_witness :
    getCol (process_data_v21 dfRate) "Sticky CPI" = some [some (7 / 2)] ∧
    getCol (process_data_v1 dfRate).2.2 "Sticky CPI" =
      some (List.replicate dfRate.index.length none) := by
  constructor
  · exact rate_passthrough.1 dfRate "Sticky CPI" [some (7 / 2)] (by decide)
      (by simp [dfRate, getCol, getCols])
  · exact (rate_passthrough.2 dfRate [some (7 / 2)]
      (by simp [dfRate, getCol, getCols])).2

/-! ## C8 — per-series fetch failure -/

theorem names_map_val (f : List (Option ℚ) → List (Option ℚ))
    (cs : List (String × List (Option ℚ))) :
    (cs.map (fun c => (c.1, f c.2))).map Prod.fst = cs.map Prod.fst := by
  induction cs with
  | nil => rfl
  | cons c rest ih => simp [ih]

/-- Claim C8 (confirmed).  A per-series fetch failure never aborts the
batch: in `rate_agent_v2.py`, provided the anchor series is fetched,
`get_rates_data` returns a table whose columns are exactly the
successfully fetched series, in ticker order (failed series absent);
and in the CPI agents, `get_macro_data` over any ticker batch with
distinct display names produces exactly the successfully fetched
columns. -/
theorem fetch_failure_isolation :
    (∀ (fetch : String → Option (List (Option ℚ))) (idx : List ℕ),
       (fetch "DGS10").isSome = true →
       ∃ df', get_rates_data_v2 fetch idx = .ok df' ∧
         colNames df' =
           (tickers_rates_v2.filter (fun cn => (fetch cn.1).isSome)).map Prod.snd) ∧
    (∀ (fetch : String → Option (List (Option ℚ)))
       (tickers : List (String × String)) (idx : List ℕ),
       (tickers.map Prod.snd).Nodup →
       colNames (get_macro_data fetch tickers idx) =
         (tickers.filter (fun cn => (fetch cn.1).isSome)).map Prod.snd) := by
  constructor
  · intro fetch idx hf
    simp only [get_rates_data_v2]
    set F := tickers_rates_v2.filterMap
      (fun cn => (fetch cn.1).map (fun s => (cn.2, s))) with hF
    have hmemF : "US 10Y Yield" ∈ F.map Prod.fst := by
      rw [hF, names_filterMap_fetch]
      rw [List.mem_map]
      refine ⟨("DGS10", "US 10Y Yield"), ?_, rfl⟩
      rw [List.mem_filter]
      exact ⟨by decide, hf⟩
    have hne : F.isEmpty = false := by
      cases hFe : F with
      | nil => rw [hFe] at hmemF; simp at hmemF
      | cons a l => rfl
    rw [hne]
    simp only [Bool.false_eq_true, if_false]
    have hhas : (getCols F "US 10Y Yield").isSome :=
      (mem_names_iff_getCols F _).mp hmemF
    obtain ⟨w0, hw0⟩ := Option.isSome_iff_exists.mp hhas
    have hw : getCol (dfFfill ⟨idx, F⟩) "US 10Y Yield" = some (ffill w0) := by
      rw [getCol_dfFfill]
      show (getCols F _).map ffill = _
      rw [hw0]
      rfl
    have hok : dropnaSubset (dfFfill ⟨idx, F⟩) "US 10Y Yield" =
        .ok ⟨maskFilter ((ffill w0).map (fun x => x.isSome)) (dfFfill ⟨idx, F⟩).index,
             (dfFfill ⟨idx, F⟩).cols.map
               (fun c => (c.1, maskFilter ((ffill w0).map (fun x => x.isSome)) c.2))⟩ := by
      unfold dropnaSubset
      rw [hw]
    refine ⟨_, hok, ?_⟩
    show ((dfFfill ⟨idx, F⟩).cols.map
      (fun c => (c.1, maskFilter ((ffill w0).map (fun x => x.isSome)) c.2))).map Prod.fst = _
    rw [names_map_val]
    show (F.map (fun c => (c.1, ffill c.2))).map Prod.fst = _
    rw [names_map_val, hF]
    exact names_filterMap_fetch fetch tickers_rates_v2
  · intro fetch tickers idx hnd
    exact colNames_get_macro_data fetch tickers idx hnd

/-- A fetch oracle failing exactly for the TGA code (`WTREGEN`) and the
breakeven code (`T5YIE`), succeeding everywhere else. -/
def fetchW : String → Option (List (Option ℚ)) :=
  fun c => if c = "WTREGEN" ∨ c = "T5YIE" then none else some [some 1]

/-- Witness for C8: with exactly `WTREGEN` and `T5YIE` failing, both
fetch loops return every other series and omit only the failed ones. -/
theorem fetch_failure_isolation_witness :
    (∃ df', get_rates_data_v2 fetchW [0] = .ok df' ∧
       colNames df' = ["US 10Y Yield", "US 2Y Yield", "Fed Funds Rate", "10Y Real Yield",
         "10Y-3M Spread", "Fed Total Assets", "Reverse Repo", "High Yield Spread",
         "Financial Conditions", "S&P 500"]) ∧
    colNames (get_macro_data fetchW tickers_v21 [0]) =
      ["CPI (Headline)", "CPI (Core)", "PPI (Final Demand)", "PCE (Headline)",
       "Supercore (Svcs ex Shelter)", "Used Cars", "CPI Shelter", "China Import Prices",
       "Sticky CPI", "10Y Real Yield"] := by
  constructor
  · obtain ⟨df', h1, h2⟩ := fetch_failure_isolation.1 fetchW [0] (by decide)
    exact ⟨df', h1, h2.trans (by decide)⟩
  · exact (fetch_failure_isolation.2 fetchW tickers_v21 [0] (by decide)).trans (by decide)

/-! ## C9 — anchor fetch failure -/

/-- Claim C9 (confirmed).  When the anchor series fetch fails (code
`CPIAUCSL`, column `CPI (Headline)`), the `cpi_agent_v2.1.py` render
cycle halts at the anchor check with a reported error, before the drop
and derivation steps — no partial derived table is produced. -/
theorem anchor_fetch_failure_halts :
    ∀ (fetch : String → Option (List (Option ℚ))) (idx : List ℕ),
      fetch "CPIAUCSL" = none →
      main_v21 fetch idx = .error "cannot fetch CPI" := by
  intro fetch idx hf
  have hnames := colNames_get_macro_data fetch tickers_v21 idx (by decide)
  have hmem : "CPI (Headline)" ∉ colNames (get_macro_data fetch tickers_v21 idx) := by
    rw [hnames]
    intro hmem
    rw [List.mem_map] at hmem
    obtain ⟨cn, hcn, hsnd⟩ := hmem
    rw [List.mem_filter] at hcn
    obtain ⟨hmem2, hsome⟩ := hcn
    simp only [tickers_v21, List.mem_cons, List.not_mem_nil, or_false] at hmem2
    rcases hmem2 with h | h | h | h | h | h | h | h | h | h | h <;> subst h <;>
      first
      | exact absurd hsnd (by decide)
      | simp [hf] at hsome
  have hcol : hasCol (get_macro_data fetch tickers_v21 idx) "CPI (Headline)" = false := by
    cases hb : hasCol (get_macro_data fetch tickers_v21 idx) "CPI (Headline)"
    · rfl
    · exact absurd ((mem_colNames_iff_hasCol _ _).mpr hb) hmem
  simp only [main_v21]
  rw [hcol]
  simp

/-- Witness for C9: with every fetch failing, the cycle reports the
anchor failure. -/
theorem anchor_fetch_failure_halts_witness :
    main_v21 (fun _ => none) [] = .error "cannot fetch CPI" :=
  anchor_fetch_failure_halts (fun _ => none) [] rfl

/-! ## C10 — frame effect of the derivation step -/

/-- Claim C10, counterexample.  On an input table that already carries
a column named `Net Liquidity` (value 5), `rate_agent_v2.py`'s
`process_rates_data` overwrites that pre-existing column with the
all-missing assignment of its `else` branch, so not every pre-existing
column survives byte-for-byte on every input table. -/
theorem derivation_overwrites_prenamed_column :
    getCol dfPreNamed "Net Liquidity" = some [some 5] ∧
    getCol (process_rates_data_v2 dfPreNamed) "Net Liquidity" = some [none] := by
  constructor
  · simp [dfPreNamed, getCol, getCols]
  · simp only [process_rates_data_v2, dfPreNamed, hasCol, getCol, getCols, setCol,
      setCols, getColD, Option.isSome, String.reduceEq, reduceIte, Bool.and_self,
      Bool.and_true, Bool.true_and, Bool.and_false, Bool.false_and, List.replicate]

/-- Claim C10, amended.  For every input table carrying none of the
derived column names, `process_rates_data` of `rate_agent_v2.py`
(respectively `rate_agent_v3.py`) leaves the date index and every
pre-existing column unchanged, and any column of the output is either
a pre-existing one or one of the derived names (`Net Liquidity` and
`Curve 10Y-2Y`; in v3 also `Liquidity Stress`, `Supercore YoY` and
`Bank Reserves Trillions`). -/
theorem derivation_frame_effect :
    (∀ df : DataFrame,
       (∀ d ∈ ["Net Liquidity", "Curve 10Y-2Y"], d ∉ colNames df) →
       (process_rates_data_v2 df).index = df.index ∧
       (∀ m ∈ colNames df, getCol (process_rates_data_v2 df) m = getCol df m) ∧
       (∀ m ∈ colNames (process_rates_data_v2 df),
          m ∈ colNames df ∨ m ∈ ["Net Liquidity", "Curve 10Y-2Y"])) ∧
    (∀ df : DataFrame,
       (∀ d ∈ ["Net Liquidity", "Liquidity Stress", "Supercore YoY",
               "Bank Reserves Trillions", "Curve 10Y-2Y"], d ∉ colNames df) →
       (process_rates_data_v3 df).index = df.index ∧
       (∀ m ∈ colNames df, getCol (process_rates_data_v3 df) m = getCol df m) ∧
       (∀ m ∈ colNames (process_rates_data_v3 df),
          m ∈ colNames df ∨ m ∈ ["Net Liquidity", "Liquidity Stress", "Supercore YoY",
            "Bank Reserves Trillions", "Curve 10Y-2Y"])) := by
  constructor
  · intro df h
    have hF := frame_process_rates_data_v2 df
    refine ⟨hF.1, fun m hm => hF.2.1 m (fun hmem => h m hmem hm), hF.2.2⟩
  · intro df h
    have hF := frame_process_rates_data_v3 df
    refine ⟨hF.1, fun m hm => hF.2.1 m (fun hmem => h m hmem hm), hF.2.2⟩

/-- A plain yield table with none of the derived column names. -/
def dfYields : DataFrame := ⟨[0, 1], [("US 10Y Yield", [some 4, some 5])]⟩

/-- Witness for C10's amended theorem: on the two-row yield table both
versions leave the index and the yield column untouched. -/
theorem derivation_frame_effect_witness :
    (process_rates_data_v2 dfYields).index = dfYields.index ∧
    getCol (process_rates_data_v2 dfYields) "US 10Y Yield" = some [some 4, some 5] ∧
    (process_rates_data_v3 dfYields).index = dfYields.index := by
  have h2 := derivation_frame_effect.1 dfYields (by decide)
  have h3 := derivation_frame_effect.2 dfYields (by decide)
  refine ⟨h2.1, ?_, h3.1⟩
  rw [h2.2.1 "US 10Y Yield" (by decide)]
  simp [dfYields, getCol, getCols]
